import Mathlib

/-
Verification model of the batch-processing pipelines of the
arabic-vocabulary repository (deepseek_enrich_words.py,
tts_arabic_words_batch.py, xtts_batch_three_voices.py).

The Python code is shallowly embedded: pure functions become Lean
functions, the external services (DeepSeek chat API, TTS models) become
oracle parameters, stateful loops become explicit state passing, and
`raise`/`SystemExit` become `Except` values.  File contents are modelled
as explicit values carried through the functions, so that "the output
file was mutated" is visible as a change of the carried value.
-/

namespace Vocab

/-! ## Python value universe

Values that can appear as items of the JSON array parsed from the model
response (json.loads output): strings, numbers (modelled as integers),
booleans, null, arrays, objects.  Objects are association lists in
insertion order, mirroring Python dict iteration order; json.loads can
not produce duplicate keys. -/

inductive PyVal where
  | str (s : String)
  | int (n : Int)
  | bool (b : Bool)
  | none
  | list (xs : List PyVal)
  | dict (kvs : List (String × PyVal))
deriving Repr

/-- Python `s.strip()`.  Implemented structurally over the character list
so it evaluates inside the kernel (core `String.trim` is well-founded
recursion over byte positions and does not reduce); Python additionally
strips some rare Unicode whitespace not covered by `Char.isWhitespace`. -/
def pyStrip (s : String) : String :=
  ⟨((s.data.dropWhile Char.isWhitespace).reverse.dropWhile Char.isWhitespace).reverse⟩

/-- Python truthiness (`bool(x)`) restricted to the `PyVal` universe. -/
def pyTruthy : PyVal → Bool
  | .str s => s != ""
  | .int n => n != 0
  | .bool b => b
  | .none => false
  | .list xs => !xs.isEmpty
  | .dict kvs => !kvs.isEmpty

/-- Python `a or b`: `a` if truthy, else `b`. -/
def pyOr (a b : PyVal) : PyVal := if pyTruthy a then a else b

/-- Python `repr` of a string.  Python prefers single quotes, switching to
double quotes when the string contains a single quote and no double
quote.  Escaping of backslashes and control characters is not modelled
(no claim exercises it). -/
def pyReprQuote (s : String) : String :=
  if s.data.contains '\'' && !s.data.contains '"' then "\"" ++ s ++ "\""
  else "'" ++ (⟨s.data.flatMap fun c => if c = '\'' then ['\\', '\''] else [c]⟩ : String) ++ "'"

mutual

/-- Python `repr(v)`.  For non-string values `str` and `repr` coincide on
this universe, which is why `pyStr` below special-cases only strings. -/
def pyRepr : PyVal → String
  | .str s => pyReprQuote s
  | .int n => toString n
  | .bool b => if b then "True" else "False"
  | .none => "None"
  | .list xs => "[" ++ ", ".intercalate (pyReprList xs) ++ "]"
  | .dict kvs => "\x7b" ++ ", ".intercalate (pyReprKVs kvs) ++ "\x7d"

def pyReprList : List PyVal → List String
  | [] => []
  | x :: xs => pyRepr x :: pyReprList xs

def pyReprKVs : List (String × PyVal) → List String
  | [] => []
  | kv :: kvs => (pyReprQuote kv.1 ++ ": " ++ pyRepr kv.2) :: pyReprKVs kvs

end

/-- Python `str(v)`: identity on strings, `repr` on every other value of
this universe. -/
def pyStr : PyVal → String
  | .str s => s
  | v => pyRepr v

/-- Escape of one character inside a JSON string literal (backslash and
double quote; control-character escapes are not modelled). -/
def jsonEscapeChar (c : Char) : List Char :=
  if c = '\\' then ['\\', '\\'] else if c = '"' then ['\\', '"'] else [c]

def jsonEscape (s : String) : String := ⟨s.data.flatMap jsonEscapeChar⟩

mutual

/-- Python `json.dumps(v, ensure_ascii=False)` with default separators
(", " between items, ": " after keys). -/
def jsonDumps : PyVal → String
  | .str s => "\"" ++ jsonEscape s ++ "\""
  | .int n => toString n
  | .bool b => if b then "true" else "false"
  | .none => "null"
  | .list xs => "[" ++ ", ".intercalate (jsonDumpsList xs) ++ "]"
  | .dict kvs => "\x7b" ++ ", ".intercalate (jsonDumpsKVs kvs) ++ "\x7d"

def jsonDumpsList : List PyVal → List String
  | [] => []
  | x :: xs => jsonDumps x :: jsonDumpsList xs

def jsonDumpsKVs : List (String × PyVal) → List String
  | [] => []
  | kv :: kvs => ("\"" ++ jsonEscape kv.1 ++ "\": " ++ jsonDumps kv.2) :: jsonDumpsKVs kvs

end

/-- Python `d.get(k)` on a `PyVal` dict: the first binding of `k`, or
`None` when absent. -/
def dictGetD (kvs : List (String × PyVal)) (k : String) : PyVal :=
  match kvs.find? (fun kv => kv.1 = k) with
  | Option.some kv => kv.2
  | Option.none => PyVal.none

/-- The join expression of deepseek_enrich_words.py lines 15 and 20:
`"；".join(str(x).strip() for x in xs if str(x).strip())`. -/
def joinStripped (xs : List PyVal) : String :=
  "；".intercalate ((xs.map fun x => pyStrip (pyStr x)).filter fun s => s != "")

/-- deepseek_enrich_words.py `normalize_item` (lines 11-24). -/
def normalize_item : PyVal → String
  | .str s => pyStrip s
  | .list xs => joinStripped xs
  | .dict kvs =>
    let pos := pyOr (dictGetD kvs "词性") (pyOr (dictGetD kvs "pos") (dictGetD kvs "part_of_speech"))
    let meanings := pyOr (dictGetD kvs "词义") (pyOr (dictGetD kvs "meaning") (dictGetD kvs "meanings"))
    let meanings :=
      match meanings with
      | .list xs => PyVal.str (joinStripped xs)
      | v => v
    if pyTruthy pos && pyTruthy meanings then
      pyStr pos ++ "：" ++ pyStrip (pyStr meanings)
    else jsonDumps (.dict kvs)
  | v => pyStrip (pyStr v)

example : normalize_item (.str "  x ") = "x" := by decide
example : normalize_item (.list [.str " a ", .str "", .str "b"]) = "a；b" := by decide
example : normalize_item (.dict [("pos", .str "noun"), ("meanings", .list [.str "m1", .str " m2"])])
    = "noun：m1；m2" := by decide
example : normalize_item (.dict [("x", .int 1)]) = "\x7b\"x\": 1\x7d" := by decide
example : normalize_item (.int (-3)) = "-3" := by decide

/-! ## Service invoker: call_with_retries (deepseek_enrich_words.py lines 91-104)

The network call `call_deepseek` is abstracted by an oracle giving, for
each 0-based attempt number, either the raised exception's message or
the JSON array parsed from the response (the word list passed to every
attempt is the same, so the attempt number determines the outcome).
`call_with_retries` returns the list of `time.sleep` durations it
performed, in order, together with either the returned array or the
message of the exception it re-raised. -/

inductive AttemptOutcome where
  | err (msg : String)
  | ok (arr : List PyVal)

/-- Whether an attempt outcome makes the `try` body of `call_with_retries`
raise: either `call_deepseek` itself raised, or the parsed array's
length differs from the input length `n`. -/
def attemptFails (n : Nat) : AttemptOutcome → Bool
  | .err _ => true
  | .ok arr => arr.length != n

/-- The message of the exception stored in `last_err` for a failing
attempt. -/
def attemptMsg (n : Nat) : AttemptOutcome → String
  | .err m => m
  | .ok arr => if arr.length != n then "Output length mismatch" else ""

/-- The retry loop of `call_with_retries`: `attempt` is the current
0-based attempt number, `remaining` the number of attempts left,
`lastErr` the message of the last stored exception.  Backoff durations
are exact rationals (`backoff * 2 ** attempt` is exact in double
precision for the magnitudes involved); when the budget is exhausted the
stored message is re-raised (with no attempts at all, Python would raise
`None`, rendered here as the string "None"). -/
def cwr_go (oracle : Nat → AttemptOutcome) (n : Nat) (backoff : ℚ) :
    Nat → Nat → Option String → List ℚ × Except String (List PyVal)
  | _, 0, lastErr => ([], .error (lastErr.getD "None"))
  | attempt, r + 1, _ =>
    match oracle attempt with
    | .ok arr =>
      if arr.length = n then ([], .ok arr)
      else
        let rest := cwr_go oracle n backoff (attempt + 1) r (Option.some "Output length mismatch")
        (backoff * 2 ^ attempt :: rest.1, rest.2)
    | .err m =>
      let rest := cwr_go oracle n backoff (attempt + 1) r (Option.some m)
      (backoff * 2 ^ attempt :: rest.1, rest.2)

/-- deepseek_enrich_words.py `call_with_retries` (lines 91-104), returning
the sleep trace and the outcome. -/
def call_with_retries (oracle : Nat → AttemptOutcome) (words : List String)
    (retries : Nat) (backoff : ℚ) : List ℚ × Except String (List PyVal) :=
  cwr_go oracle words.length backoff 0 retries Option.none

/-- Oracle that fails twice then returns a single-element array. -/
def failTwice : Nat → AttemptOutcome :=
  fun a => if a < 2 then .err "fail" else .ok [.str "x"]

/-- Oracle that always raises. -/
def oracleBoom : Nat → AttemptOutcome := fun _ => .err "boom"

/-- Oracle whose first attempt returns a wrong-length array and whose
later attempts return a correct one. -/
def oracleMismatch : Nat → AttemptOutcome :=
  fun a => if a = 0 then .ok [] else .ok [.str "r"]

/-- Every element of the sleep trace of the retry loop is
`backoff * 2 ^ (first attempt number + position)`. -/
theorem cwr_go_trace (oracle : Nat → AttemptOutcome) (n : Nat) (backoff : ℚ) :
    ∀ (r attempt : Nat) (lastErr : Option String) (k : Nat),
      k < (cwr_go oracle n backoff attempt r lastErr).1.length →
      (cwr_go oracle n backoff attempt r lastErr).1.getD k 0 = backoff * 2 ^ (attempt + k) := by
  intro r
  induction r with
  | zero => intro attempt lastErr k hk; simp [cwr_go] at hk
  | succ r ih =>
    intro attempt lastErr k hk
    rw [cwr_go] at hk ⊢
    cases h : oracle attempt with
    | ok arr =>
      rw [h] at hk
      dsimp only at hk ⊢
      by_cases hl : arr.length = n
      · simp [hl] at hk
      · simp only [if_neg hl] at hk ⊢
        cases k with
        | zero => simp
        | succ k =>
          simp only [List.getD_cons_succ, List.length_cons, Nat.succ_lt_succ_iff] at hk ⊢
          rw [ih (attempt + 1) (Option.some "Output length mismatch") k hk]
          ring_nf
    | err m =>
      rw [h] at hk
      dsimp only at hk ⊢
      cases k with
      | zero => simp
      | succ k =>
        simp only [List.getD_cons_succ, List.length_cons, Nat.succ_lt_succ_iff] at hk ⊢
        rw [ih (attempt + 1) (Option.some m) k hk]
        ring_nf

/-- If every attempt in the budget fails, the loop re-raises the message
of the last failing attempt. -/
theorem cwr_go_exhaust (oracle : Nat → AttemptOutcome) (n : Nat) (backoff : ℚ) :
    ∀ (r attempt : Nat) (lastErr : Option String),
      0 < r →
      (∀ k, k < r → attemptFails n (oracle (attempt + k)) = true) →
      (cwr_go oracle n backoff attempt r lastErr).2
        = .error (attemptMsg n (oracle (attempt + r - 1))) := by
  intro r
  induction r with
  | zero => intro attempt lastErr h; omega
  | succ r ih =>
    intro attempt lastErr _ hall
    have h0 := hall 0 (Nat.succ_pos r)
    rw [Nat.add_zero] at h0
    rw [cwr_go]
    cases h : oracle attempt with
    | ok arr =>
      rw [h] at h0
      dsimp only
      simp only [attemptFails, bne_iff_ne, ne_eq, decide_eq_true_eq] at h0
      have hl : ¬ arr.length = n := h0
      simp only [if_neg hl]
      cases r with
      | zero =>
        have : attempt + (0 + 1) - 1 = attempt := by omega
        rw [this, h]
        simp [cwr_go, attemptMsg, bne_iff_ne, hl]
      | succ r' =>
        have hrec := ih (attempt + 1) (Option.some "Output length mismatch") (Nat.succ_pos r')
          (by
            intro k hk
            have := hall (k + 1) (by omega)
            rwa [show attempt + (k + 1) = attempt + 1 + k by omega] at this)
        rw [hrec, show attempt + 1 + (r' + 1) - 1 = attempt + (r' + 1 + 1) - 1 from by omega]
    | err m =>
      dsimp only
      cases r with
      | zero =>
        have harr : attempt + (0 + 1) - 1 = attempt := by omega
        rw [harr, h]
        simp [cwr_go, attemptMsg]
      | succ r' =>
        have hrec := ih (attempt + 1) (Option.some m) (Nat.succ_pos r')
          (by
            intro k hk
            have := hall (k + 1) (by omega)
            rwa [show attempt + (k + 1) = attempt + 1 + k by omega] at this)
        rw [hrec, show attempt + 1 + (r' + 1) - 1 = attempt + (r' + 1 + 1) - 1 from by omega]

/-- A successful outcome of the retry loop is one of the oracle's arrays,
unmodified, and has exactly length `n`. -/
theorem cwr_go_ok (oracle : Nat → AttemptOutcome) (n : Nat) (backoff : ℚ) :
    ∀ (r attempt : Nat) (lastErr : Option String) (res : List PyVal),
      (cwr_go oracle n backoff attempt r lastErr).2 = .ok res →
      res.length = n ∧ ∃ k, attempt ≤ k ∧ k < attempt + r ∧ oracle k = .ok res := by
  intro r
  induction r with
  | zero => intro attempt lastErr res h; simp [cwr_go] at h
  | succ r ih =>
    intro attempt lastErr res h
    rw [cwr_go] at h
    cases ho : oracle attempt with
    | ok arr =>
      rw [ho] at h
      dsimp only at h
      by_cases hl : arr.length = n
      · simp only [if_pos hl, Except.ok.injEq] at h
        subst h
        exact ⟨hl, attempt, Nat.le_refl _, by omega, ho⟩
      · simp only [if_neg hl] at h
        obtain ⟨hlen, k, hk1, hk2, hk3⟩ := ih (attempt + 1) _ res h
        exact ⟨hlen, k, by omega, by omega, hk3⟩
    | err m =>
      rw [ho] at h
      dsimp only at h
      obtain ⟨hlen, k, hk1, hk2, hk3⟩ := ih (attempt + 1) _ res h
      exact ⟨hlen, k, by omega, by omega, hk3⟩

/-! ## deepseek_enrich_words.py main: startup / resume phase (lines 194-248)

An input row as produced by csv.DictReader: an association list from
column name to cell value (first binding wins, as in a Python dict). -/

def Row := List (String × String)
deriving DecidableEq, Repr

/-- Python `row.get(k, d)` on a DictReader row. -/
def rowGetD (row : Row) (k d : String) : String :=
  match List.find? (fun kv => kv.1 = k) row with
  | Option.some kv => kv.2
  | Option.none => d

/-- The existing aggregated output file: header line plus data rows (the
model does not represent a header-less file; `count_existing_rows` on an
empty file also reports a header mismatch in the code). -/
structure OutFile where
  header : List String
  rows : List (List String)
deriving DecidableEq, Repr

/-- The fatal `SystemExit` conditions of the startup phase, in program
order. -/
inductive Fatal where
  | missingApiKey
  | noHeader
  | missingWordColumn
  | outputHeaderMismatch
  | outputExistsNoResume
  | badStart
  | skipTargetExceedsInput
deriving DecidableEq, Repr

/-- deepseek_enrich_words.py `count_existing_rows` (lines 106-114) on the
modelled output file state. -/
def count_existing_rows (file : Option OutFile) (expected_header : List String) :
    Except Fatal Nat :=
  match file with
  | Option.none => .ok 0
  | Option.some f =>
    if f.header = expected_header then .ok f.rows.length
    else .error .outputHeaderMismatch

/-- Startup configuration of a non-rewrite run of `main`. -/
structure DSConfigIn where
  apiKeyPresent : Bool
  inputHeader : Option (List String)
  inputRows : Nat
  outputFile : Option OutFile
  overwrite : Bool
  resume : Bool
  no_resume : Bool
  start : Int
deriving Repr

/-- Lines 222-224: `resume_allowed = not no_resume; if resume: True`. -/
def resumeAllowed (c : DSConfigIn) : Bool := !c.no_resume || c.resume

/-- Successful outcome of the startup phase: the output-file state when
row processing begins, the count of already-present data rows, and the
number of input rows skipped. -/
structure DSReady where
  outFile : OutFile
  processed : Nat
  skipped : Nat
deriving DecidableEq, Repr

/-- Lines 239-248 of `main`: `--start` validation and row skipping,
entered with the output already opened (its state is `outState`, which is
always present on the paths that reach this point). -/
def ds_config_skip (c : DSConfigIn) (outState : Option OutFile) (processed : Nat) :
    Option OutFile × Except Fatal DSReady :=
  if c.start < 1 then (outState, .error .badStart)
  else
    let skip_target := max processed (c.start - 1).toNat
    let skipped := min skip_target c.inputRows
    if skipped < skip_target then (outState, .error .skipTargetExceedsInput)
    else
      match outState with
      | Option.some f => (outState, .ok ⟨f, processed, skipped⟩)
      | Option.none => (outState, .error .noHeader)

/-- The startup phase of `main` (lines 194-248): credential check, input
header checks, output open (append on resume; create/truncate otherwise,
which mutates the output before the `--start` and skip-target checks run),
then row skipping.  The first component is the state of the output file at
the moment the phase ends — by error or success — so that mutation before
an abort is observable. -/
def ds_config (c : DSConfigIn) : Option OutFile × Except Fatal DSReady :=
  if !c.apiKeyPresent then (c.outputFile, .error .missingApiKey)
  else
    match c.inputHeader with
    | Option.none => (c.outputFile, .error .noHeader)
    | Option.some hdr =>
      if "word" ∉ hdr then (c.outputFile, .error .missingWordColumn)
      else
        let out_fields := hdr ++ ["meaning_pos"]
        if c.outputFile.isSome && !c.overwrite && resumeAllowed c then
          match count_existing_rows c.outputFile out_fields with
          | .error e => (c.outputFile, .error e)
          | .ok processed =>
            -- append mode: opening with "a" does not change the file
            ds_config_skip c c.outputFile processed
        else if c.outputFile.isSome && !c.overwrite && !resumeAllowed c then
          (c.outputFile, .error .outputExistsNoResume)
        else
          -- open with "w": truncate and write the new header immediately
          ds_config_skip c (Option.some ⟨out_fields, []⟩) 0

/-! ## deepseek_enrich_words.py main: processing loop (lines 250-298)

The batch service is abstracted as a function from the word batch to the
outcome of `call_with_retries` for it: either the parsed result array or
the exception that propagates out of `main` and aborts the run.
Writing a CSV row is modelled by appending the (row, normalized meaning)
pair to the `out` list. -/

structure DSState where
  total_written : Nat
  out : List (Row × String)
  batch_rows : List Row
  batch_words : List String
deriving DecidableEq, Repr

/-- One batch flush (lines 263-279 and 284-298): call the service, then
write one output row per (row, result) pair — `zip` stops at the shorter
list — and clear the buffers. -/
def ds_flush (svc : List String → Except String (List PyVal)) (st : DSState) :
    Except String DSState :=
  match svc st.batch_words with
  | .error e => .error e
  | .ok results =>
    let new := (st.batch_rows.zip results).map fun p => (p.1, normalize_item p.2)
    .ok ⟨st.total_written + new.length, st.out ++ new, [], []⟩

/-- The row loop of `main` (lines 254-281): stop when the limit is
reached, otherwise buffer the row and its stripped word, flushing when
the buffer reaches the batch size.  The inter-batch sleep is pure pacing
and is not modelled. -/
def ds_loop (svc : List String → Except String (List PyVal)) (batchSize limit : Nat) :
    List Row → DSState → Except String DSState
  | [], st => .ok st
  | row :: rest, st =>
    if limit ≠ 0 ∧ st.total_written ≥ limit then .ok st
    else
      let word := pyStrip (rowGetD row "word" "")
      let st1 : DSState :=
        ⟨st.total_written, st.out, st.batch_rows ++ [row], st.batch_words ++ [word]⟩
      if st1.batch_words.length = batchSize then
        match ds_flush svc st1 with
        | .error e => .error e
        | .ok st2 => ds_loop svc batchSize limit rest st2
      else ds_loop svc batchSize limit rest st1

/-- The full processing phase (lines 250-298): run the loop from an empty
buffer starting at `processed` already-written rows, then flush the final
partial batch unless the limit forbids it (lines 283-298). -/
def ds_process (svc : List String → Except String (List PyVal))
    (batchSize limit processed : Nat) (rows : List Row) : Except String DSState :=
  match ds_loop svc batchSize limit rows ⟨processed, [], [], []⟩ with
  | .error e => .error e
  | .ok st =>
    if st.batch_words ≠ [] ∧ (limit = 0 ∨ st.total_written < limit) then ds_flush svc st
    else .ok st

instance {e a : Type} [DecidableEq e] [DecidableEq a] : DecidableEq (Except e a) := fun x y =>
  match x, y with
  | .ok v, .ok w =>
    if h : v = w then isTrue (by rw [h]) else isFalse (fun hh => by cases hh; exact h rfl)
  | .error v, .error w =>
    if h : v = w then isTrue (by rw [h]) else isFalse (fun hh => by cases hh; exact h rfl)
  | .ok _, .error _ => isFalse (fun hh => Except.noConfusion hh)
  | .error _, .ok _ => isFalse (fun hh => Except.noConfusion hh)

/-- Echo service: one string result per word, the word itself. -/
def svcEcho : List String → Except String (List PyVal) :=
  fun ws => .ok (ws.map PyVal.str)

/-- Service that rejects any batch containing an empty word, used to
observe which words reach the service. -/
def svcRejectEmpty : List String → Except String (List PyVal) :=
  fun ws => if ws.contains "" then .error "empty word reached the service" else .ok (ws.map PyVal.str)

/-! ## deepseek_enrich_words.py rewrite_first_rows (lines 116-171)

The input and the existing output are modelled as header plus DictReader
rows; `os.replace` of the temporary file is the single-step substitution
of the new output value; the backup written by `shutil.copy2` is the
first component of the successful result. -/

/-- Python `rows[i][k] = v` on a DictReader row: replace the first
binding of `k` in place, appending when absent. -/
def rowSet : Row → String → String → Row
  | [], k, v => [(k, v)]
  | kv :: rest, k, v => if kv.1 = k then (k, v) :: rest else kv :: rowSet rest k v

/-- deepseek_enrich_words.py `rewrite_first_rows` (lines 116-171).  On
success it returns `(backup, new output)`, each a header/rows pair; an
`Except.error` models `SystemExit` or the propagated service exception,
and means the existing output file was not touched (the first file write
in the source is the backup copy, which happens after every check). -/
def rewrite_first_rows (inputHeaders : List String) (inputRows : List Row)
    (svc : List String → Except String (List PyVal)) (count : Nat)
    (outHeaders : List String) (outRows : List Row) :
    Except String ((List String × List Row) × (List String × List Row)) :=
  if count < 1 then .error "--rewrite-first must be >= 1"
  else if "word" ∉ inputHeaders then .error "Input CSV must contain a word column"
  else
    let words := (inputRows.take count).map fun r => pyStrip (rowGetD r "word" "")
    if words.length < count then .error "Input has fewer rows than --rewrite-first"
    else
      match svc words with
      | .error e => .error e
      | .ok results =>
        if results.length ≠ count then .error "Output length mismatch"
        else
          let results := results.map normalize_item
          if "meaning_pos" ∉ outHeaders then .error "Output missing meaning_pos column"
          else if outRows.length < count then .error "Output has fewer rows than --rewrite-first"
          else
            let newRows := outRows.enum.map fun p =>
              if p.1 < count then rowSet p.2 "meaning_pos" (results.getD p.1 "") else p.2
            .ok ((outHeaders, outRows), (outHeaders, newRows))

example :
    rewrite_first_rows ["word"] [[("word", "ktb")], [("word", "qlm")]] svcEcho 1
        ["word", "meaning_pos"]
        [[("word", "ktb"), ("meaning_pos", "old")], [("word", "qlm"), ("meaning_pos", "keep")]]
      = .ok ((["word", "meaning_pos"],
              [[("word", "ktb"), ("meaning_pos", "old")], [("word", "qlm"), ("meaning_pos", "keep")]]),
             (["word", "meaning_pos"],
              [[("word", "ktb"), ("meaning_pos", "ktb")], [("word", "qlm"), ("meaning_pos", "keep")]])) := by
  decide

/-! ## tts_arabic_words_batch.py flush_batch (lines 174-221)

The TTS model is abstracted by two oracles: the batch call
`model.tts(texts, ...)` returning one waveform per text (waveforms are
opaque, modelled as naturals) or raising, and the per-text call
`model.tts(text, ...)` used on the degraded path.  `torchaudio.save` is
modelled as appending `(path, waveform)` to the list of saved files (the
model assumes saves themselves succeed).  `log_skip` appends to the
lazily created skipped.csv, modelled as a list of entries. -/

structure LogEntry where
  row_index : Int
  row_id : String
  text : String
  reason : String
deriving DecidableEq, Repr

structure TtsState where
  processed : Nat
  saved : List (String × Nat)
  log : List LogEntry
deriving DecidableEq, Repr

/-- Python `zip(a, b, c)`: truncates to the shortest input. -/
def zip3 {α β γ : Type} : List α → List β → List γ → List (α × β × γ)
  | a :: as, b :: bs, c :: cs => (a, b, c) :: zip3 as bs cs
  | _, _, _ => []

/-- One step of the degraded per-record loop (lines 202-216): synthesize
one text; on success save it and count it, on failure log a `tts_error`
entry. -/
def degradeStep (singleTts : String → Except String Nat) (s : TtsState)
    (it : String × String × Int × String) : TtsState :=
  match singleTts it.1 with
  | .ok w => ⟨s.processed + 1, s.saved ++ [(it.2.1, w)], s.log⟩
  | .error e => ⟨s.processed, s.saved, s.log ++ [⟨it.2.2.1, it.2.2.2, it.1, "tts_error:" ++ e⟩]⟩

/-- The try/except body of `flush_batch` (lines 189-217), after the limit
truncation: one batch call; on success save every waveform; on failure
degrade to per-record calls and append the final `batch_error` entry with
row index -1 and empty id and text. -/
def flush_core (batchTts : List String → Except String (List Nat))
    (singleTts : String → Except String Nat)
    (texts paths : List String) (metas : List (Int × String)) (st : TtsState) : TtsState :=
  match batchTts texts with
  | .ok wavs =>
    let saves := (zip3 paths wavs metas).map fun x => (x.1, x.2.1)
    ⟨st.processed + saves.length, st.saved ++ saves, st.log⟩
  | .error exc =>
    let st1 := (zip3 texts paths metas).foldl (degradeStep singleTts) st
    ⟨st1.processed, st1.saved, st1.log ++ [⟨-1, "", "", "batch_error:" ++ exc⟩]⟩

/-- tts_arabic_words_batch.py `flush_batch` (lines 174-221): empty batch
is a no-op; with a limit, a batch arriving with no remaining budget
returns unchanged, otherwise the batch is truncated to the remaining
budget before the call. -/
def flush_batch (batchTts : List String → Except String (List Nat))
    (singleTts : String → Except String Nat) (limit : Nat)
    (batch_texts batch_paths : List String) (batch_meta : List (Int × String))
    (st : TtsState) : TtsState :=
  if batch_texts = [] then st
  else if limit ≠ 0 then
    let remaining : Int := (limit : Int) - (st.processed : Int)
    if remaining ≤ 0 then st
    else
      flush_core batchTts singleTts (batch_texts.take remaining.toNat)
        (batch_paths.take remaining.toNat) (batch_meta.take remaining.toNat) st
  else flush_core batchTts singleTts batch_texts batch_paths batch_meta st

example :
    flush_batch (fun _ => .error "cuda") (fun t => if t = "x" then .error "bad" else .ok 7) 0
        ["x", "y"] ["px", "py"] [(1, "a"), (2, "b")] ⟨0, [], []⟩
      = ⟨1, [("py", 7)],
          [⟨1, "a", "x", "tts_error:bad"⟩, ⟨-1, "", "", "batch_error:cuda"⟩]⟩ := by decide

example :
    flush_batch (fun ts => .ok (ts.map fun _ => 5)) (fun _ => .ok 5) 2
        ["x", "y", "z"] ["px", "py", "pz"] [(1, "a"), (2, "b"), (3, "c")] ⟨1, [], []⟩
      = ⟨2, [("px", 5)], []⟩ := by decide

/-! ## xtts_batch_three_voices.py main loop (lines 266-300)

`iter_words` (identical in tts_arabic_words_batch.py lines 64-76 and
xtts_batch_three_voices.py lines 82-94): enumerate the data rows after
the header starting at 1 — empty rows consume an index but yield
nothing — resolving the text from `text_col` with `fallback_col` as
backup when the primary cell is empty. -/

def iter_words (rows : List (List String)) (text_col : Nat) (fallback_col : Option Nat) :
    List (Nat × List String × String) :=
  (rows.enum.map fun p => (p.1 + 1, p.2)).filterMap fun p =>
    if p.2 = [] then Option.none
    else
      let text := p.2.getD text_col ""
      let text :=
        match fallback_col with
        | Option.some fc => if text = "" ∧ fc < p.2.length then p.2.getD fc "" else text
        | Option.none => text
      Option.some (p.1, p.2, text)

/-- xtts_batch_three_voices.py `choose_filename` (lines 120-125): the
stripped id cell when present and non-empty, else `row_<index>`. -/
def choose_filename (row : List String) (id_col : Option Nat) (index : Nat) : String :=
  match id_col with
  | Option.some c =>
    let i := pyStrip (row.getD c "")
    if i = "" then "row_" ++ toString index else i
  | Option.none => "row_" ++ toString index

/-- One synthesis call issued by the xtts loop: which record, which
voice, to which output path. -/
structure XttsCall where
  index : Nat
  voice : String
  path : String
  text : String
deriving DecidableEq, Repr

/-- The row loop of xtts_batch_three_voices.py `main` (lines 266-300):
window by `start_row`/`end_row`, skip empty text, then synthesize once
per voice (skipping per-voice when `skip_existing` finds the output
file), count the record and stop at `limit`.  The existence check is a
predicate parameter; the synthesis calls are returned in order together
with the final processed count. -/
def xtts_loop (out_dir : String) (voices : List String) (existing : String → Bool)
    (start_row end_row limit : Nat) (skip_existing : Bool) (id_col : Option Nat) :
    List (Nat × List String × String) → Nat → List XttsCall × Nat
  | [], processed => ([], processed)
  | (index, row, text) :: rest, processed =>
    if index < start_row then
      xtts_loop out_dir voices existing start_row end_row limit skip_existing id_col rest processed
    else if end_row ≠ 0 ∧ index > end_row then ([], processed)
    else if text = "" then
      xtts_loop out_dir voices existing start_row end_row limit skip_existing id_col rest processed
    else
      let base := choose_filename row id_col index
      let calls := voices.filterMap fun name =>
        let path := out_dir ++ "/" ++ name ++ "/" ++ base ++ ".wav"
        if skip_existing && existing path then Option.none
        else Option.some ⟨index, name, path, text⟩
      let processed1 := processed + 1
      if limit ≠ 0 ∧ processed1 ≥ limit then (calls, processed1)
      else
        let r := xtts_loop out_dir voices existing start_row end_row limit skip_existing id_col rest processed1
        (calls ++ r.1, r.2)

example :
    xtts_loop "o" ["voice1"] (fun _ => false) 1 0 0 false (Option.some 2)
        (iter_words [["hi", "", "w1"], [], ["", "fb", "w2"]] 0 (Option.some 1)) 0
      = ([⟨1, "voice1", "o/voice1/w1.wav", "hi"⟩, ⟨3, "voice1", "o/voice1/w2.wav", "fb"⟩], 2) := by
  decide

/-! ## tts_arabic_words_batch.py synthesize_csv row loop (lines 223-250)

The admission loop of the tts batch pipeline: it filters each record
(empty text, already-existing artifact, invalid tokens), accumulates the
survivors into the batch buffers, and flushes through `flush_batch`.
The tokenizer check `find_invalid_tokens` is abstracted by an oracle
from the text to its list of missing tokens ([] means valid), and
artifact existence by a predicate on paths, as in the xtts model. -/

/-- Characters replaced by `safe_filename`
(tts_arabic_words_batch.py line 83). -/
def forbiddenChar (c : Char) : Bool :=
  c = '\\' || c = '/' || c = ':' || c = '*' || c = '?' || c = '"' || c = '<' || c = '>' || c = '|'

/-- Python `re.sub(r"[\\/:*?\"<>|]+", "_", s)` over the character list:
each maximal run of forbidden characters becomes one underscore.  The
boolean records whether the previous character was part of such a run
(structural recursion so the kernel can evaluate it). -/
def subForbiddenGo (prevForbidden : Bool) : List Char → List Char
  | [] => []
  | c :: cs =>
    if forbiddenChar c then
      if prevForbidden then subForbiddenGo true cs
      else '_' :: subForbiddenGo true cs
    else c :: subForbiddenGo false cs

/-- tts_arabic_words_batch.py `safe_filename` (lines 79-83). -/
def safe_filename (value : String) : String :=
  let value := pyStrip value
  if value = "" then "" else ⟨subForbiddenGo false value.data⟩

example : safe_filename " a/b:c " = "a_b_c" := by decide
example : safe_filename "a//<>b" = "a_b" := by decide

/-- tts_arabic_words_batch.py `choose_filename` (lines 86-91): the
sanitized id cell with the extension appended when present and
non-empty, else `row_<index>.<ext>`. -/
def tts_choose_filename (row : List String) (id_col : Option Nat) (index : Nat)
    (ext : String) : String :=
  match id_col with
  | Option.some c =>
    if c < row.length then
      let i := safe_filename (row.getD c "")
      if i ≠ "" then i ++ "." ++ ext else "row_" ++ toString index ++ "." ++ ext
    else "row_" ++ toString index ++ "." ++ ext
  | Option.none => "row_" ++ toString index ++ "." ++ ext

/-- The row loop of `synthesize_csv` (lines 223-250) over the records
produced by `iter_words`, carrying the batch buffers and the run state.
Besides the final state it returns the list of admitted records
(index, text, output path) — the records appended to the batch buffers —
so that the admission conditions can be stated.  After an inline flush
the buffers are cleared (the flush always runs here because the loop
breaks as soon as the limit is reached, so the processed count is below
the limit on entry); the final `flush_batch()` after a break sees the
cleared buffers and is a no-op, so the break returns directly. -/
def synthesize_rows (bt : List String → Except String (List Nat))
    (g : String → Except String Nat) (invalid : String → List String)
    (existing : String → Bool) (out_dir : String) (id_col : Option Nat) (ext : String)
    (batch_size limit : Nat) (skip_existing : Bool) :
    List (Nat × List String × String) →
    List String → List String → List (Int × String) → TtsState →
    List (Nat × String × String) × TtsState
  | [], bts, bps, bms, st => ([], flush_batch bt g limit bts bps bms st)
  | (index, row, text) :: rest, bts, bps, bms, st =>
    if text = "" then
      synthesize_rows bt g invalid existing out_dir id_col ext batch_size limit skip_existing
        rest bts bps bms st
    else
      let out_path := out_dir ++ "/" ++ tts_choose_filename row id_col index ext
      if skip_existing && existing out_path then
        synthesize_rows bt g invalid existing out_dir id_col ext batch_size limit skip_existing
          rest bts bps bms st
      else
        let row_id :=
          match id_col with
          | Option.some c => if c < row.length then pyStrip (row.getD c "") else ""
          | Option.none => ""
        if invalid text ≠ [] then
          synthesize_rows bt g invalid existing out_dir id_col ext batch_size limit skip_existing
            rest bts bps bms
            ⟨st.processed, st.saved,
              st.log ++ [⟨index, row_id, text, "invalid_tokens:" ++ " ".intercalate (invalid text)⟩]⟩
        else
          let bts1 := bts ++ [text]
          let bps1 := bps ++ [out_path]
          let bms1 := bms ++ [((index : Int), row_id)]
          if bts1.length ≥ batch_size then
            let st2 := flush_batch bt g limit bts1 bps1 bms1 st
            if limit ≠ 0 ∧ st2.processed ≥ limit then ([(index, text, out_path)], st2)
            else
              let r := synthesize_rows bt g invalid existing out_dir id_col ext batch_size limit
                skip_existing rest [] [] [] st2
              ((index, text, out_path) :: r.1, r.2)
          else
            let r := synthesize_rows bt g invalid existing out_dir id_col ext batch_size limit
              skip_existing rest bts1 bps1 bms1 st
            ((index, text, out_path) :: r.1, r.2)

/-- tts_arabic_words_batch.py `synthesize_csv` (lines 135-254): run the
row loop from empty buffers and a fresh state. -/
def synthesize_csv (bt : List String → Except String (List Nat))
    (g : String → Except String Nat) (invalid : String → List String)
    (existing : String → Bool) (out_dir : String) (id_col : Option Nat) (ext : String)
    (batch_size limit : Nat) (skip_existing : Bool)
    (recs : List (Nat × List String × String)) : List (Nat × String × String) × TtsState :=
  synthesize_rows bt g invalid existing out_dir id_col ext batch_size limit skip_existing
    recs [] [] [] ⟨0, [], []⟩

example :
    synthesize_csv (fun ts => .ok (ts.map fun _ => 9)) (fun _ => .ok 9)
        (fun t => if t = "bad" then ["q"] else []) (fun p => p = "o/w1.wav")
        "o" (Option.some 2) "wav" 2 0 true
        (iter_words [["hi", "", "w1"], ["bad", "", "w2"], ["ok", "", "w3"], ["", "", "w4"]]
          0 (Option.some 1))
      = ([(3, "ok", "o/w3.wav")],
         ⟨1, [("o/w3.wav", 9)], [⟨2, "w2", "bad", "invalid_tokens:q"⟩]⟩) := by decide

/-! ## Lemmas about the degraded per-record path of flush_batch -/

/-- The save produced by one degraded item, when its per-record call
succeeds. -/
def degradeSucc (g : String → Except String Nat) (it : String × String × Int × String) :
    Option (String × Nat) :=
  match g it.1 with
  | .ok w => Option.some (it.2.1, w)
  | .error _ => Option.none

/-- The failure-log entry produced by one degraded item, when its
per-record call raises. -/
def degradeFail (g : String → Except String Nat) (it : String × String × Int × String) :
    Option LogEntry :=
  match g it.1 with
  | .error e => Option.some ⟨it.2.2.1, it.2.2.2, it.1, "tts_error:" ++ e⟩
  | .ok _ => Option.none

theorem foldl_degradeStep (g : String → Except String Nat) :
    ∀ (items : List (String × String × Int × String)) (st : TtsState),
      items.foldl (degradeStep g) st
        = ⟨st.processed + (items.filterMap (degradeSucc g)).length,
           st.saved ++ items.filterMap (degradeSucc g),
           st.log ++ items.filterMap (degradeFail g)⟩ := by
  intro items
  induction items with
  | nil => intro st; simp
  | cons it rest ih =>
    intro st
    rw [List.foldl_cons, ih]
    cases hg : g it.1 with
    | ok w =>
      simp [degradeStep, degradeSucc, degradeFail, hg, List.filterMap_cons, List.append_assoc,
        TtsState.mk.injEq]
      try omega
    | error e =>
      simp [degradeStep, degradeSucc, degradeFail, hg, List.filterMap_cons, List.append_assoc,
        TtsState.mk.injEq]
      try omega

theorem zip3_length_le_left {α β γ : Type} :
    ∀ (as : List α) (bs : List β) (cs : List γ), (zip3 as bs cs).length ≤ as.length := by
  intro as
  induction as with
  | nil => intro bs cs; cases bs <;> cases cs <;> simp [zip3]
  | cons a as ih =>
    intro bs cs
    cases bs with
    | nil => simp [zip3]
    | cons b bs =>
      cases cs with
      | nil => simp [zip3]
      | cons c cs => simpa [zip3] using ih bs cs

/-- The processed count after one `flush_core` grows by at most the
larger of the text- and path-list lengths. -/
theorem flush_core_processed_le (bt : List String → Except String (List Nat))
    (g : String → Except String Nat) (texts paths : List String)
    (metas : List (Int × String)) (st : TtsState) :
    (flush_core bt g texts paths metas st).processed
      ≤ st.processed + max texts.length paths.length := by
  unfold flush_core
  cases hb : bt texts with
  | ok wavs =>
    dsimp only
    have h1 : ((zip3 paths wavs metas).map fun x => (x.1, x.2.1)).length ≤ paths.length := by
      rw [List.length_map]; exact zip3_length_le_left paths wavs metas
    have : paths.length ≤ max texts.length paths.length := le_max_right _ _
    omega
  | error exc =>
    dsimp only
    rw [foldl_degradeStep]
    dsimp only
    have h1 : ((zip3 texts paths metas).filterMap (degradeSucc g)).length
        ≤ (zip3 texts paths metas).length := List.length_filterMap_le _ _
    have h2 : (zip3 texts paths metas).length ≤ texts.length := zip3_length_le_left _ _ _
    have : texts.length ≤ max texts.length paths.length := le_max_left _ _
    omega

/-- With a positive limit, `flush_batch` never pushes the processed count
past the limit: the batch is truncated to the remaining budget. -/
theorem flush_batch_le (bt : List String → Except String (List Nat))
    (g : String → Except String Nat) (limit : Nat)
    (texts paths : List String) (metas : List (Int × String)) (st : TtsState)
    (hpos : 0 < limit) (hle : st.processed ≤ limit) :
    (flush_batch bt g limit texts paths metas st).processed ≤ limit := by
  unfold flush_batch
  by_cases hempty : texts = []
  · rw [if_pos hempty]; exact hle
  · rw [if_neg hempty, if_pos (by omega : limit ≠ 0)]
    by_cases hrem : ((limit : Int) - (st.processed : Int)) ≤ 0
    · rw [if_pos hrem]; exact hle
    · rw [if_neg hrem]
      have hlt : st.processed < limit := by omega
      have htn : ((limit : Int) - (st.processed : Int)).toNat = limit - st.processed := by omega
      have hb := flush_core_processed_le bt g (texts.take ((limit : Int) - (st.processed : Int)).toNat)
        (paths.take ((limit : Int) - (st.processed : Int)).toNat)
        (metas.take ((limit : Int) - (st.processed : Int)).toNat) st
      have h1 : (texts.take ((limit : Int) - (st.processed : Int)).toNat).length
          ≤ limit - st.processed := by
        rw [List.length_take]; omega
      have h2 : (paths.take ((limit : Int) - (st.processed : Int)).toNat).length
          ≤ limit - st.processed := by
        rw [List.length_take]; omega
      omega

/-! ## Lemmas about the deepseek processing loop -/

theorem ds_flush_ok (svc : List String → Except String (List PyVal)) (st st2 : DSState)
    (h : ds_flush svc st = .ok st2) :
    st2.total_written ≤ st.total_written + st.batch_rows.length
      ∧ st2.batch_rows = [] ∧ st2.batch_words = [] := by
  unfold ds_flush at h
  cases hs : svc st.batch_words with
  | error e => rw [hs] at h; cases h
  | ok results =>
    rw [hs] at h
    dsimp only at h
    cases h
    refine ⟨?_, rfl, rfl⟩
    have : (st.batch_rows.zip results).length ≤ st.batch_rows.length := by
      rw [List.length_zip]; omega
    simp only [List.length_map]
    omega

/-- Once the limit is reached, the row loop admits nothing further. -/
theorem ds_loop_stop (svc : List String → Except String (List PyVal)) (B L : Nat)
    (rows : List Row) (st : DSState) (hL : L ≠ 0) (hge : st.total_written ≥ L) :
    ds_loop svc B L rows st = .ok st := by
  cases rows with
  | nil => rw [ds_loop]
  | cons row rest => rw [ds_loop, if_pos ⟨hL, hge⟩]

/-- Invariant of the row loop: buffers stay strictly below the batch size
and aligned, and the written total never exceeds
`max (initial total) (L - 1 + B)`. -/
theorem ds_loop_inv (svc : List String → Except String (List PyVal)) (B L : Nat)
    (hB : 1 ≤ B) (hL : 1 ≤ L) :
    ∀ (rows : List Row) (st st' : DSState),
      st.batch_words.length < B →
      st.batch_rows.length = st.batch_words.length →
      ds_loop svc B L rows st = .ok st' →
      st'.total_written ≤ max st.total_written (L - 1 + B)
        ∧ st'.batch_words.length < B
        ∧ st'.batch_rows.length = st'.batch_words.length := by
  intro rows
  induction rows with
  | nil =>
    intro st st' hlen heq hrun
    rw [ds_loop] at hrun
    cases hrun
    exact ⟨le_max_left _ _, hlen, heq⟩
  | cons row rest ih =>
    intro st st' hlen heq hrun
    rw [ds_loop] at hrun
    by_cases hstop : L ≠ 0 ∧ st.total_written ≥ L
    · rw [if_pos hstop] at hrun
      cases hrun
      exact ⟨le_max_left _ _, hlen, heq⟩
    · rw [if_neg hstop] at hrun
      have hlt : st.total_written < L := by
        rcases Nat.lt_or_ge st.total_written L with h | h
        · exact h
        · exact absurd ⟨by omega, h⟩ hstop
      dsimp only at hrun
      by_cases hfull : (st.batch_words ++ [pyStrip (rowGetD row "word" "")]).length = B
      · rw [if_pos hfull] at hrun
        cases hfl : ds_flush svc
            ⟨st.total_written, st.out, st.batch_rows ++ [row],
              st.batch_words ++ [pyStrip (rowGetD row "word" "")]⟩ with
        | error e => rw [hfl] at hrun; cases hrun
        | ok st2 =>
          rw [hfl] at hrun
          dsimp only at hrun
          obtain ⟨hb, hbr, hbw⟩ := ds_flush_ok svc _ st2 hfl
          dsimp only at hb
          have hrows : (st.batch_rows ++ [row]).length = B := by
            simp only [List.length_append, List.length_cons, List.length_nil] at hfull ⊢
            omega
          have hst2 : st2.total_written ≤ L - 1 + B := by
            rw [hrows] at hb
            omega
          have := ih st2 st' (by rw [hbw]; simpa using hB) (by simp [hbr, hbw])
            hrun
          rcases this with ⟨h1, h2, h3⟩
          exact ⟨by omega, h2, h3⟩
      · rw [if_neg hfull] at hrun
        have hlen1 : (st.batch_words ++ [pyStrip (rowGetD row "word" "")]).length < B := by
          simp only [List.length_append, List.length_cons, List.length_nil] at hfull ⊢
          omega
        have heq1 : (st.batch_rows ++ [row]).length
            = (st.batch_words ++ [pyStrip (rowGetD row "word" "")]).length := by
          simp only [List.length_append, List.length_cons, List.length_nil]
          omega
        have := ih _ st' hlen1 heq1 hrun
        rcases this with ⟨h1, h2, h3⟩
        exact ⟨by simpa using h1, h2, h3⟩

/-- With a positive limit, the final written total of the deepseek
processing phase is bounded by `max processed (L - 1 + B)`: admission
stops at the limit, but a full batch is written whole, so the total can
overshoot the limit by up to `B - 1`. -/
theorem ds_process_le (svc : List String → Except String (List PyVal))
    (B L processed : Nat) (rows : List Row) (st' : DSState)
    (hB : 1 ≤ B) (hL : 1 ≤ L)
    (h : ds_process svc B L processed rows = .ok st') :
    st'.total_written ≤ max processed (L - 1 + B) := by
  unfold ds_process at h
  cases hloop : ds_loop svc B L rows ⟨processed, [], [], []⟩ with
  | error e => rw [hloop] at h; cases h
  | ok st =>
    rw [hloop] at h
    dsimp only at h
    obtain ⟨h1, h2, h3⟩ := ds_loop_inv svc B L hB hL rows ⟨processed, [], [], []⟩ st
      (by simpa using hB) (by simp) hloop
    dsimp only at h1
    by_cases hc : st.batch_words ≠ [] ∧ (L = 0 ∨ st.total_written < L)
    · rw [if_pos hc] at h
      obtain ⟨hb, _, _⟩ := ds_flush_ok svc st st' h
      have hlt : st.total_written < L := by
        rcases hc.2 with h0 | h0
        · omega
        · exact h0
      omega
    · rw [if_neg hc] at h
      cases h
      exact h1

/-! ## Lemmas about the xtts loop -/

/-- Every synthesis call issued by the xtts loop satisfies the window
bounds, has non-empty text, and — when skip-existing is on — targets a
path with no existing artifact. -/
theorem xtts_loop_calls (od : String) (vs : List String) (ex : String → Bool)
    (sr er lim : Nat) (sk : Bool) (ic : Option Nat) :
    ∀ (recs : List (Nat × List String × String)) (processed : Nat)
      (c : XttsCall), c ∈ (xtts_loop od vs ex sr er lim sk ic recs processed).1 →
      sr ≤ c.index ∧ (er = 0 ∨ c.index ≤ er) ∧ c.text ≠ ""
        ∧ (sk = true → ex c.path = false) := by
  intro recs
  induction recs with
  | nil => intro processed c hc; simp [xtts_loop] at hc
  | cons rec rest ih =>
    intro processed c hc
    obtain ⟨index, row, text⟩ := rec
    rw [xtts_loop] at hc
    by_cases h1 : index < sr
    · rw [if_pos h1] at hc
      exact ih processed c hc
    · rw [if_neg h1] at hc
      by_cases h2 : er ≠ 0 ∧ index > er
      · rw [if_pos h2] at hc
        simp at hc
      · rw [if_neg h2] at hc
        by_cases h3 : text = ""
        · rw [if_pos h3] at hc
          exact ih processed c hc
        · rw [if_neg h3] at hc
          dsimp only at hc
          have hmem :
              c ∈ vs.filterMap (fun name =>
                let path := od ++ "/" ++ name ++ "/" ++ choose_filename row ic index ++ ".wav"
                if sk && ex path then Option.none
                else Option.some ⟨index, name, path, text⟩) →
              sr ≤ c.index ∧ (er = 0 ∨ c.index ≤ er) ∧ c.text ≠ ""
                ∧ (sk = true → ex c.path = false) := by
            intro hm
            rw [List.mem_filterMap] at hm
            obtain ⟨name, _, hname⟩ := hm
            dsimp only at hname
            by_cases hskip :
                (sk && ex (od ++ "/" ++ name ++ "/" ++ choose_filename row ic index ++ ".wav")) = true
            · rw [if_pos hskip] at hname; cases hname
            · rw [if_neg hskip] at hname
              cases hname
              dsimp only
              refine ⟨by omega, ?_, h3, ?_⟩
              · by_cases her : er = 0
                · exact Or.inl her
                · refine Or.inr ?_
                  by_contra hgt
                  exact h2 ⟨her, by omega⟩
              · intro hsk
                subst hsk
                simpa using hskip
          by_cases h4 : lim ≠ 0 ∧ processed + 1 ≥ lim
          · rw [if_pos h4] at hc
            exact hmem hc
          · rw [if_neg h4] at hc
            dsimp only at hc
            rw [List.mem_append] at hc
            rcases hc with hc | hc
            · exact hmem hc
            · exact ih (processed + 1) c hc

/-- With a positive limit and the running count strictly below it, the
xtts loop never processes past the limit. -/
theorem xtts_loop_limit (od : String) (vs : List String) (ex : String → Bool)
    (sr er lim : Nat) (sk : Bool) (ic : Option Nat) :
    ∀ (recs : List (Nat × List String × String)) (processed : Nat),
      lim ≠ 0 → processed < lim →
      (xtts_loop od vs ex sr er lim sk ic recs processed).2 ≤ lim := by
  intro recs
  induction recs with
  | nil => intro processed _ h; simp [xtts_loop]; omega
  | cons rec rest ih =>
    intro processed hlim hlt
    obtain ⟨index, row, text⟩ := rec
    rw [xtts_loop]
    by_cases h1 : index < sr
    · rw [if_pos h1]; exact ih processed hlim hlt
    · rw [if_neg h1]
      by_cases h2 : er ≠ 0 ∧ index > er
      · rw [if_pos h2]; dsimp only; omega
      · rw [if_neg h2]
        by_cases h3 : text = ""
        · rw [if_pos h3]; exact ih processed hlim hlt
        · rw [if_neg h3]
          dsimp only
          by_cases h4 : lim ≠ 0 ∧ processed + 1 ≥ lim
          · rw [if_pos h4]; dsimp only; omega
          · rw [if_neg h4]
            dsimp only
            have : processed + 1 < lim := by
              rcases Nat.lt_or_ge (processed + 1) lim with h | h
              · exact h
              · exact absurd ⟨hlim, h⟩ h4
            exact ih (processed + 1) hlim this

/-! ## Lemmas about the tts synthesize_csv loop -/

/-- Every record admitted to the batch by the tts row loop has non-empty
text, no already-existing artifact at its output path when skip-existing
is on, and no invalid tokens. -/
theorem synthesize_rows_admitted (bt : List String → Except String (List Nat))
    (g : String → Except String Nat) (invalid : String → List String)
    (existing : String → Bool) (od : String) (ic : Option Nat) (ext : String)
    (bs lim : Nat) (sk : Bool) :
    ∀ (recs : List (Nat × List String × String)) (bts bps : List String)
      (bms : List (Int × String)) (st : TtsState) (a : Nat × String × String),
      a ∈ (synthesize_rows bt g invalid existing od ic ext bs lim sk recs bts bps bms st).1 →
      a.2.1 ≠ "" ∧ (sk = true → existing a.2.2 = false) ∧ invalid a.2.1 = [] := by
  intro recs
  induction recs with
  | nil => intro bts bps bms st a ha; simp [synthesize_rows] at ha
  | cons rec rest ih =>
    intro bts bps bms st a ha
    obtain ⟨index, row, text⟩ := rec
    rw [synthesize_rows.eq_def] at ha
    try dsimp only at ha
    by_cases h1 : text = ""
    · rw [if_pos h1] at ha
      exact ih bts bps bms st a ha
    · rw [if_neg h1] at ha
      try dsimp only at ha
      by_cases h2 : (sk && existing (od ++ "/" ++ tts_choose_filename row ic index ext)) = true
      · rw [if_pos h2] at ha
        exact ih bts bps bms st a ha
      · rw [if_neg h2] at ha
        by_cases h3 : invalid text ≠ []
        · rw [if_pos h3] at ha
          exact ih bts bps bms _ a ha
        · rw [if_neg h3] at ha
          have htup : text ≠ ""
              ∧ (sk = true → existing (od ++ "/" ++ tts_choose_filename row ic index ext) = false)
              ∧ invalid text = [] := by
            refine ⟨h1, ?_, not_not.mp h3⟩
            intro hsk
            subst hsk
            simpa using h2
          by_cases h4 : (bts ++ [text]).length ≥ bs
          · rw [if_pos h4] at ha
            by_cases h5 : lim ≠ 0
                ∧ (flush_batch bt g lim (bts ++ [text])
                    (bps ++ [od ++ "/" ++ tts_choose_filename row ic index ext])
                    (bms ++ [((index : Int),
                      match ic with
                      | Option.some c => if c < row.length then pyStrip (row.getD c "") else ""
                      | Option.none => "")]) st).processed ≥ lim
            · rw [if_pos h5] at ha
              simp only [List.mem_singleton] at ha
              subst ha
              exact htup
            · rw [if_neg h5] at ha
              dsimp only at ha
              rw [List.mem_cons] at ha
              rcases ha with rfl | ha
              · exact htup
              · exact ih _ _ _ _ a ha
          · rw [if_neg h4] at ha
            dsimp only at ha
            rw [List.mem_cons] at ha
            rcases ha with rfl | ha
            · exact htup
            · exact ih _ _ _ _ a ha

/-- With a positive limit, the tts row loop never pushes the processed
count past the limit: every flush goes through the truncating
`flush_batch`. -/
theorem synthesize_rows_limit (bt : List String → Except String (List Nat))
    (g : String → Except String Nat) (invalid : String → List String)
    (existing : String → Bool) (od : String) (ic : Option Nat) (ext : String)
    (bs lim : Nat) (sk : Bool) (hpos : 0 < lim) :
    ∀ (recs : List (Nat × List String × String)) (bts bps : List String)
      (bms : List (Int × String)) (st : TtsState), st.processed ≤ lim →
      (synthesize_rows bt g invalid existing od ic ext bs lim sk recs bts bps bms st).2.processed
        ≤ lim := by
  intro recs
  induction recs with
  | nil =>
    intro bts bps bms st hle
    rw [synthesize_rows]
    exact flush_batch_le bt g lim bts bps bms st hpos hle
  | cons rec rest ih =>
    intro bts bps bms st hle
    obtain ⟨index, row, text⟩ := rec
    rw [synthesize_rows.eq_def]
    try dsimp only
    by_cases h1 : text = ""
    · rw [if_pos h1]
      exact ih bts bps bms st hle
    · rw [if_neg h1]
      try dsimp only
      by_cases h2 : (sk && existing (od ++ "/" ++ tts_choose_filename row ic index ext)) = true
      · rw [if_pos h2]
        exact ih bts bps bms st hle
      · rw [if_neg h2]
        by_cases h3 : invalid text ≠ []
        · rw [if_pos h3]
          exact ih bts bps bms _ hle
        · rw [if_neg h3]
          by_cases h4 : (bts ++ [text]).length ≥ bs
          · rw [if_pos h4]
            have hfl : (flush_batch bt g lim (bts ++ [text])
                (bps ++ [od ++ "/" ++ tts_choose_filename row ic index ext])
                (bms ++ [((index : Int),
                  match ic with
                  | Option.some c => if c < row.length then pyStrip (row.getD c "") else ""
                  | Option.none => "")]) st).processed ≤ lim :=
              flush_batch_le bt g lim _ _ _ st hpos hle
            by_cases h5 : lim ≠ 0
                ∧ (flush_batch bt g lim (bts ++ [text])
                    (bps ++ [od ++ "/" ++ tts_choose_filename row ic index ext])
                    (bms ++ [((index : Int),
                      match ic with
                      | Option.some c => if c < row.length then pyStrip (row.getD c "") else ""
                      | Option.none => "")]) st).processed ≥ lim
            · rw [if_pos h5]
              exact hfl
            · rw [if_neg h5]
              exact ih _ _ _ _ hfl
          · rw [if_neg h4]
            exact ih _ _ _ _ hle

/-! ## Lemmas about the startup phase -/

/-- `ds_config_skip` never changes the output-file state it is given. -/
theorem ds_config_skip_fst (c : DSConfigIn) (o : Option OutFile) (p : Nat) :
    (ds_config_skip c o p).1 = o := by
  unfold ds_config_skip
  by_cases h1 : c.start < 1
  · rw [if_pos h1]
  · rw [if_neg h1]
    dsimp only
    by_cases h2 : min (max p (c.start - 1).toNat) c.inputRows < max p (c.start - 1).toNat
    · rw [if_pos h2]
    · rw [if_neg h2]
      cases o <;> rfl

/-- The only fatal errors `ds_config_skip` can raise for a present output
state are the bad-start and skip-target conditions. -/
theorem ds_config_skip_err (c : DSConfigIn) (f : OutFile) (p : Nat) (e : Fatal)
    (h : (ds_config_skip c (Option.some f) p).2 = .error e) :
    e = .badStart ∨ e = .skipTargetExceedsInput := by
  unfold ds_config_skip at h
  by_cases h1 : c.start < 1
  · rw [if_pos h1] at h; cases h; exact Or.inl rfl
  · rw [if_neg h1] at h
    dsimp only at h
    by_cases h2 : min (max p (c.start - 1).toNat) c.inputRows < max p (c.start - 1).toNat
    · rw [if_pos h2] at h; cases h; exact Or.inr rfl
    · rw [if_neg h2] at h; cases h

/-- Every fatal error raised before the output file is opened for
writing leaves the output untouched; the two late checks (`--start` and
the skip target) can only fire after the open. -/
theorem ds_config_early_no_mutation (c : DSConfigIn) (e : Fatal)
    (h : (ds_config c).2 = .error e)
    (h1 : e ≠ .badStart) (h2 : e ≠ .skipTargetExceedsInput) :
    (ds_config c).1 = c.outputFile := by
  obtain ⟨ak, ihd, ir, ofl, ov, rs, nr, stt⟩ := c
  unfold ds_config at h ⊢
  dsimp only at h ⊢
  cases ak with
  | false => rfl
  | true =>
    simp only [Bool.not_true, Bool.false_eq_true, if_false] at h ⊢
    cases ihd with
    | none => rfl
    | some hdr =>
      try dsimp only at h ⊢
      by_cases hw : "word" ∉ hdr
      · rw [if_pos hw]
      · rw [if_neg hw] at h ⊢
        try dsimp only at h ⊢
        by_cases hc1 : ((Option.isSome ofl) && !ov && resumeAllowed ⟨true, Option.some hdr, ir, ofl, ov, rs, nr, stt⟩) = true
        · rw [if_pos hc1] at h ⊢
          cases hcer : count_existing_rows ofl (hdr ++ ["meaning_pos"]) with
          | error e2 => rfl
          | ok p => exact ds_config_skip_fst _ ofl p
        · rw [if_neg hc1] at h ⊢
          by_cases hc2 : ((Option.isSome ofl) && !ov && !resumeAllowed ⟨true, Option.some hdr, ir, ofl, ov, rs, nr, stt⟩) = true
          · rw [if_pos hc2]
          · rw [if_neg hc2] at h ⊢
            rcases ds_config_skip_err _ ⟨hdr ++ ["meaning_pos"], []⟩ 0 e h with he | he
            · exact absurd he h1
            · exact absurd he h2

/-- In append/resume mode — existing output, no overwrite, resume
permitted — `ds_config` never changes the output file, whatever its
outcome. -/
theorem ds_config_append_no_mutation (c : DSConfigIn) (f : OutFile)
    (hof : c.outputFile = Option.some f) (hov : c.overwrite = false)
    (hra : resumeAllowed c = true) :
    (ds_config c).1 = c.outputFile := by
  obtain ⟨ak, ihd, ir, ofl, ov, rs, nr, stt⟩ := c
  dsimp only at hof hov
  subst hof hov
  unfold ds_config
  dsimp only
  cases ak with
  | false => rfl
  | true =>
    simp only [Bool.not_true, Bool.false_eq_true, if_false]
    cases ihd with
    | none => rfl
    | some hdr =>
      try dsimp only
      by_cases hw : "word" ∉ hdr
      · rw [if_pos hw]
      · rw [if_neg hw]
        try dsimp only
        have hc1 : ((Option.some f).isSome && !false && resumeAllowed ⟨true, Option.some hdr, ir, Option.some f, false, rs, nr, stt⟩) = true := by
          simp only [Option.isSome_some, Bool.not_false, Bool.and_true, Bool.true_and]
          exact hra
        rw [if_pos hc1]
        cases hcer : count_existing_rows (Option.some f) (hdr ++ ["meaning_pos"]) with
        | error e2 => rfl
        | ok p => exact ds_config_skip_fst _ (Option.some f) p

/-- C4: when resuming with an existing aggregated output that matches
the expected schema, the number of input rows skipped equals
`max (explicit start - 1) (rows already in the output)`; if the input
has fewer rows than this skip target the run fails fatally with the
skip-target-exceeds-input error. -/
theorem ds_config_resume_skip (c : DSConfigIn) (hdr : List String) (f : OutFile)
    (hak : c.apiKeyPresent = true)
    (hih : c.inputHeader = Option.some hdr)
    (hw : "word" ∈ hdr)
    (hof : c.outputFile = Option.some f)
    (hov : c.overwrite = false)
    (hra : resumeAllowed c = true)
    (hhdr : f.header = hdr ++ ["meaning_pos"])
    (hst : 1 ≤ c.start) :
    (max f.rows.length (c.start - 1).toNat ≤ c.inputRows →
      (ds_config c).2 = .ok ⟨f, f.rows.length, max f.rows.length (c.start - 1).toNat⟩)
    ∧ (c.inputRows < max f.rows.length (c.start - 1).toNat →
      (ds_config c).2 = .error .skipTargetExceedsInput) := by
  obtain ⟨ak, ihd, ir, ofl, ov, rs, nr, stt⟩ := c
  dsimp only at hak hih hof hov hra hst ⊢
  subst hak hih hof hov
  have hmain : (ds_config ⟨true, Option.some hdr, ir, Option.some f, false, rs, nr, stt⟩).2
      = (ds_config_skip ⟨true, Option.some hdr, ir, Option.some f, false, rs, nr, stt⟩
          (Option.some f) f.rows.length).2 := by
    unfold ds_config
    try dsimp only
    simp only [Bool.not_true, Bool.false_eq_true, if_false]
    rw [if_neg (by simpa using hw)]
    try dsimp only
    have hc1 : ((Option.some f).isSome && !false && resumeAllowed ⟨true, Option.some hdr, ir, Option.some f, false, rs, nr, stt⟩) = true := by
      simp only [Option.isSome_some, Bool.not_false, Bool.and_true, Bool.true_and]
      exact hra
    rw [if_pos hc1]
    have hcer : count_existing_rows (Option.some f) (hdr ++ ["meaning_pos"])
        = .ok f.rows.length := by
      unfold count_existing_rows
      dsimp only
      rw [if_pos hhdr]
    rw [hcer]
  rw [hmain]
  unfold ds_config_skip
  dsimp only
  rw [if_neg (by omega : ¬ stt < 1)]
  constructor
  · intro hge
    rw [if_neg (by omega : ¬ min (max f.rows.length (stt - 1).toNat) ir
        < max f.rows.length (stt - 1).toNat)]
    have hmin : min (max f.rows.length (stt - 1).toNat) ir
        = max f.rows.length (stt - 1).toNat := by omega
    rw [hmin]
  · intro hlt
    rw [if_pos (by omega : min (max f.rows.length (stt - 1).toNat) ir
        < max f.rows.length (stt - 1).toNat)]

/-! ## Lemmas about rewrite_first_rows -/

/-- Setting one key of a DictReader row does not change any other key. -/
theorem rowGetD_rowSet_ne (k k' v d : String) (h : k' ≠ k) :
    ∀ r : Row, rowGetD (rowSet r k v) k' d = rowGetD r k' d := by
  intro r
  induction r with
  | nil =>
    simp [rowSet, rowGetD, List.find?, Ne.symm h]
  | cons kv rest ih =>
    by_cases hkv : kv.1 = k
    · show rowGetD (if kv.1 = k then (k, v) :: rest else kv :: rowSet rest k v) k' d = _
      rw [if_pos hkv]
      simp only [rowGetD, List.find?]
      rw [show (decide (k = k')) = false from by simp [Ne.symm h],
        show (decide (kv.1 = k')) = false from by simp [hkv, Ne.symm h]]
    · show rowGetD (if kv.1 = k then (k, v) :: rest else kv :: rowSet rest k v) k' d = _
      rw [if_neg hkv]
      simp only [rowGetD, List.find?]
      cases hk2 : decide (kv.1 = k') with
      | true => rfl
      | false => exact ih

/-- Rows at or beyond the rewrite count are untouched by the update map
of `rewrite_first_rows`. -/
theorem rewrite_map_getD_ge (outRows : List Row) (count i : Nat) (results : List String)
    (hi : count ≤ i) :
    (outRows.enum.map fun q =>
        if q.1 < count then rowSet q.2 "meaning_pos" (results.getD q.1 "") else q.2).getD i []
      = outRows.getD i [] := by
  rw [List.getD_eq_getElem?_getD, List.getD_eq_getElem?_getD, List.getElem?_map,
    List.getElem?_enum]
  cases h : outRows[i]? with
  | none => rfl
  | some r =>
    simp only [Option.map_some']
    rw [if_neg (by omega : ¬ i < count)]

/-- Rows below the rewrite count are exactly the original row with its
result cell replaced. -/
theorem rewrite_map_getD_lt (outRows : List Row) (count i : Nat) (results : List String)
    (hi : i < count) (hilen : i < outRows.length) :
    (outRows.enum.map fun q =>
        if q.1 < count then rowSet q.2 "meaning_pos" (results.getD q.1 "") else q.2).getD i []
      = rowSet (outRows.getD i []) "meaning_pos" (results.getD i "") := by
  rw [List.getD_eq_getElem?_getD, List.getD_eq_getElem?_getD, List.getElem?_map,
    List.getElem?_enum]
  cases h : outRows[i]? with
  | none =>
    exact absurd (List.getElem?_eq_none_iff.mp h) (by omega)
  | some r =>
    simp only [Option.map_some']
    rw [if_pos (by simpa using hi)]
    simp

/-! ## Claim theorems -/

/-- C1 counterexample: in the text pipeline, a batch whose service call
fails on all R = 3 retry attempts is dropped — `call_with_retries`
re-raises the last error (which propagates out of `main` and aborts the
run) instead of degrading to per-record calls. -/
theorem c1_counterexample :
    call_with_retries oracleBoom ["w"] 3 2 = ([2, 4, 8], .error "boom") := by
  have h : call_with_retries oracleBoom ["w"] 3 2
      = ([2 * 2 ^ 0, 2 * 2 ^ 1, 2 * 2 ^ 2], .error "boom") := rfl
  rw [h]
  norm_num

/-- C1 (amended): only the audio pipeline degrades.  (1) In the text
pipeline, when every attempt in the retry budget fails,
`call_with_retries` re-raises the last stored error — the batch is not
retried per record.  (2) In the audio pipeline, a failed batch-level
call makes `flush_batch` degrade to one call per record: each per-record
success is saved, each per-record exception becomes a `tts_error`
Failure Log entry, so successes of the batch-mates are still produced. -/
theorem c1_retry_exhaustion_behavior :
    (∀ (oracle : Nat → AttemptOutcome) (words : List String) (retries : Nat) (backoff : ℚ),
        0 < retries →
        (∀ k, k < retries → attemptFails words.length (oracle k) = true) →
        (call_with_retries oracle words retries backoff).2
          = .error (attemptMsg words.length (oracle (retries - 1))))
    ∧ (∀ (bt : List String → Except String (List Nat)) (g : String → Except String Nat)
        (texts paths : List String) (metas : List (Int × String)) (st : TtsState) (e : String),
        texts ≠ [] → bt texts = .error e →
        (flush_batch bt g 0 texts paths metas st).saved
            = st.saved ++ (zip3 texts paths metas).filterMap (degradeSucc g)
          ∧ (flush_batch bt g 0 texts paths metas st).log
            = st.log ++ (zip3 texts paths metas).filterMap (degradeFail g)
                ++ [⟨-1, "", "", "batch_error:" ++ e⟩]) := by
  constructor
  · intro oracle words retries backoff hr hall
    have h := cwr_go_exhaust oracle words.length backoff retries 0 Option.none hr
      (by intro k hk; simpa using hall k hk)
    rw [show 0 + retries - 1 = retries - 1 from by omega] at h
    exact h
  · intro bt g texts paths metas st e hne hbt
    unfold flush_batch
    rw [if_neg hne, if_neg (by simp : ¬ (0 : Nat) ≠ 0)]
    unfold flush_core
    rw [hbt]
    dsimp only
    rw [foldl_degradeStep]
    exact ⟨rfl, by simp [List.append_assoc]⟩

/-- C1 witness: a two-attempt budget where every attempt raises ends in
the last error being re-raised. -/
theorem c1_witness :
    (call_with_retries oracleBoom ["w"] 2 2).2 = .error "boom" :=
  c1_retry_exhaustion_behavior.1 oracleBoom ["w"] 2 2 (by decide) (by decide)

/-- C2 counterexample: limit 1, batch size 2, two input rows — the text
pipeline admits both rows while nothing is written yet, then flushes the
full batch, writing 2 rows and exceeding the limit of 1. -/
theorem c2_counterexample :
    ds_process svcEcho 2 1 0 [[("word", "a")], [("word", "b")]]
        = .ok ⟨2, [([("word", "a")], "a"), ([("word", "b")], "b")], [], []⟩
      ∧ 1 < 2 :=
  ⟨by decide, by decide⟩

/-- C2 (amended): the audio pipeline truncates each batch to the
remaining budget, so its processed count never exceeds a positive limit;
the text pipeline stops admitting rows once the written total reaches
the limit, but a flushed batch is written whole, so the final total is
only bounded by `max processed (limit - 1 + batch)`. -/
theorem c2_limit_enforcement :
    (∀ (bt : List String → Except String (List Nat)) (g : String → Except String Nat)
        (limit : Nat) (texts paths : List String) (metas : List (Int × String)) (st : TtsState),
        0 < limit → st.processed ≤ limit →
        (flush_batch bt g limit texts paths metas st).processed ≤ limit)
    ∧ (∀ (svc : List String → Except String (List PyVal)) (B L processed : Nat)
        (rows : List Row) (st' : DSState), 1 ≤ B → 1 ≤ L →
        ds_process svc B L processed rows = .ok st' →
        st'.total_written ≤ max processed (L - 1 + B))
    ∧ (∀ (svc : List String → Except String (List PyVal)) (B L : Nat)
        (rows : List Row) (st : DSState), L ≠ 0 → st.total_written ≥ L →
        ds_loop svc B L rows st = .ok st) := by
  refine ⟨?_, ?_, ?_⟩
  · intro bt g limit texts paths metas st h1 h2
    exact flush_batch_le bt g limit texts paths metas st h1 h2
  · intro svc B L p rows st' hB hL h
    exact ds_process_le svc B L p rows st' hB hL h
  · intro svc B L rows st h1 h2
    exact ds_loop_stop svc B L rows st h1 h2

/-- C2 witness: a three-text batch against limit 2 with one already
processed is truncated, ending at the limit. -/
theorem c2_witness :
    (flush_batch (fun ts => .ok (ts.map fun _ => 5)) (fun _ => .ok 5) 2
        ["x", "y", "z"] ["px", "py", "pz"] [(1, "a"), (2, "b"), (3, "c")]
        ⟨1, [], []⟩).processed ≤ 2 :=
  c2_limit_enforcement.1 _ _ 2 _ _ _ _ (by decide) (by decide)

/-- Configuration exhibiting the C3 counterexample: overwrite mode with
an existing one-row output, and an input shorter than the skip target. -/
def c3_config : DSConfigIn :=
  ⟨true, Option.some ["word"], 0, Option.some ⟨["word", "meaning_pos"], [["x", "y"]]⟩,
    true, false, false, 5⟩

/-- C3 counterexample: with `--overwrite --start 5` and an empty input,
the run aborts with the skip-target fatal error, but the output file was
already truncated to the fresh header — it is not "exactly as it was
before the run started". -/
theorem c3_counterexample :
    (ds_config c3_config).2 = .error .skipTargetExceedsInput
      ∧ (ds_config c3_config).1 ≠ c3_config.outputFile :=
  ⟨by decide, by decide⟩

/-- C3 (amended): fatal errors raised before the output is opened
(missing credential, missing input header or word column, output header
mismatch, output existing without permission) abort with the output
untouched, and in append/resume mode every fatal error leaves the output
untouched; but the `--start` and skip-target checks run after the output
is opened, so in fresh-create/overwrite mode those two aborts leave the
output already truncated to the new header. -/
theorem c3_fatal_no_mutation :
    (∀ (c : DSConfigIn) (e : Fatal), (ds_config c).2 = .error e →
        e ≠ .badStart → e ≠ .skipTargetExceedsInput →
        (ds_config c).1 = c.outputFile)
    ∧ (∀ (c : DSConfigIn) (f : OutFile), c.outputFile = Option.some f →
        c.overwrite = false → resumeAllowed c = true →
        (ds_config c).1 = c.outputFile) :=
  ⟨ds_config_early_no_mutation, ds_config_append_no_mutation⟩

/-- Configuration whose only defect is the missing credential. -/
def c3_noKeyConfig : DSConfigIn :=
  ⟨false, Option.some ["word"], 2, Option.some ⟨["word", "meaning_pos"], [["a", "b"]]⟩,
    false, false, false, 1⟩

/-- C3 witness: the missing-credential abort leaves the output file
untouched. -/
theorem c3_witness : (ds_config c3_noKeyConfig).1 = c3_noKeyConfig.outputFile :=
  c3_fatal_no_mutation.1 c3_noKeyConfig .missingApiKey rfl (by decide) (by decide)

/-- Resume configuration for the C4 witness: one existing output row,
start 1, three input rows. -/
def c4_config : DSConfigIn :=
  ⟨true, Option.some ["word"], 3, Option.some ⟨["word", "meaning_pos"], [["a", "b"]]⟩,
    false, true, false, 1⟩

/-- C4 witness: resuming over an output with one data row skips exactly
`max (1 - 1) 1 = 1` input row. -/
theorem c4_witness :
    (ds_config c4_config).2 = .ok ⟨⟨["word", "meaning_pos"], [["a", "b"]]⟩, 1, 1⟩ :=
  (ds_config_resume_skip c4_config ["word"] ⟨["word", "meaning_pos"], [["a", "b"]]⟩
    rfl rfl (by decide) rfl rfl rfl rfl (by decide)).1 (by decide)

/-- C5: every recorded backoff wait for failed attempt k (0-based) is
exactly `backoff * 2 ^ k`; in particular a batch call that fails twice
and then succeeds with backoff 2.0 sleeps 2.0s then 4.0s before the
successful third attempt. -/
theorem c5_backoff_schedule :
    (∀ (oracle : Nat → AttemptOutcome) (words : List String) (retries : Nat) (backoff : ℚ)
        (k : Nat), k < (call_with_retries oracle words retries backoff).1.length →
        (call_with_retries oracle words retries backoff).1.getD k 0 = backoff * 2 ^ k)
    ∧ call_with_retries failTwice ["w"] 3 2 = ([2, 4], .ok [.str "x"]) := by
  constructor
  · intro oracle words retries backoff k hk
    have h := cwr_go_trace oracle words.length backoff retries 0 Option.none k
      (by simpa using hk)
    simpa using h
  · have h : call_with_retries failTwice ["w"] 3 2
        = ([2 * 2 ^ 0, 2 * 2 ^ 1], .ok [.str "x"]) := rfl
    rw [h]
    norm_num

/-- C5 witness: the first recorded wait of the fail-twice scenario is
`2 * 2 ^ 0`. -/
theorem c5_witness :
    (call_with_retries failTwice ["w"] 3 2).1.getD 0 0 = 2 * 2 ^ 0 :=
  c5_backoff_schedule.1 failTwice ["w"] 3 2 0 (by decide)

/-- C6: a response with the wrong result count is never accepted — any
successful outcome of `call_with_retries` is one of the service's own
arrays with exactly one result per input word — and a mismatched first
attempt is retried under the same backoff schedule (the run continues
with the remaining attempts after the backoff sleep) rather than
aborting or being returned. -/
theorem c6_length_mismatch_transient :
    (∀ (oracle : Nat → AttemptOutcome) (words : List String) (retries : Nat) (backoff : ℚ)
        (res : List PyVal),
        (call_with_retries oracle words retries backoff).2 = .ok res →
        res.length = words.length ∧ ∃ k, k < retries ∧ oracle k = .ok res)
    ∧ (∀ (oracle : Nat → AttemptOutcome) (words : List String) (r : Nat) (backoff : ℚ)
        (arr : List PyVal),
        oracle 0 = .ok arr → arr.length ≠ words.length →
        call_with_retries oracle words (r + 1) backoff
          = (backoff * 2 ^ 0
                :: (cwr_go oracle words.length backoff 1 r (Option.some "Output length mismatch")).1,
             (cwr_go oracle words.length backoff 1 r (Option.some "Output length mismatch")).2)) := by
  constructor
  · intro oracle words retries backoff res h
    obtain ⟨hlen, k, _, hk2, hk3⟩ :=
      cwr_go_ok oracle words.length backoff retries 0 Option.none res h
    exact ⟨hlen, k, by omega, hk3⟩
  · intro oracle words r backoff arr h0 hne
    show cwr_go oracle words.length backoff 0 (r + 1) Option.none = _
    rw [cwr_go, h0]
    dsimp only
    rw [if_neg hne]

/-- C6 witness: a first attempt returning an empty array for a one-word
batch is retried — the run equals a backoff sleep followed by the
remaining two attempts. -/
theorem c6_witness :
    call_with_retries oracleMismatch ["w"] 3 2
      = (2 * 2 ^ 0 :: (cwr_go oracleMismatch 1 2 1 2 (Option.some "Output length mismatch")).1,
         (cwr_go oracleMismatch 1 2 1 2 (Option.some "Output length mismatch")).2) :=
  c6_length_mismatch_transient.2 oracleMismatch ["w"] 2 2 [] rfl (by decide)

/-- C7 counterexample: a one-element list whose element carries
surrounding whitespace does not normalize to that element joined as-is —
the code strips each element first, so `[" a "]` yields `"a"`, not
`" a "`. -/
theorem c7_counterexample :
    normalize_item (.list [.str " a "]) = "a"
      ∧ normalize_item (.list [.str " a "]) ≠ " a " :=
  ⟨by decide, by decide⟩

/-- C7 (amended): normalization is a total deterministic function —
a plain string maps to itself stripped; a list maps to its elements each
stringified and stripped, with elements that strip to empty dropped,
joined by the full-width semicolon; a structured item with a truthy
category and meanings maps to `category：joined-meanings`; a dict whose
category lookup is falsy falls back to its JSON serialization; every
other shape falls back to its stripped `str()` coercion.  Totality is
inherent: `normalize_item` is a total Lean function. -/
theorem c7_normalization :
    (∀ s, normalize_item (.str s) = pyStrip s)
    ∧ (∀ xs, normalize_item (.list xs)
        = "；".intercalate ((xs.map fun x => pyStrip (pyStr x)).filter fun t => t != ""))
    ∧ (∀ (p : String) (ms : List PyVal), p ≠ "" → joinStripped ms ≠ "" →
        normalize_item (.dict [("pos", .str p), ("meanings", .list ms)])
          = p ++ "：" ++ pyStrip (joinStripped ms))
    ∧ (∀ kvs, pyTruthy (pyOr (dictGetD kvs "词性")
          (pyOr (dictGetD kvs "pos") (dictGetD kvs "part_of_speech"))) = false →
        normalize_item (.dict kvs) = jsonDumps (.dict kvs))
    ∧ (∀ n : Int, normalize_item (.int n) = pyStrip (pyStr (.int n)))
    ∧ (∀ b : Bool, normalize_item (.bool b) = pyStrip (pyStr (.bool b)))
    ∧ normalize_item PyVal.none = pyStrip (pyStr PyVal.none) := by
  refine ⟨fun s => rfl, fun xs => rfl, ?_, ?_, fun n => rfl, fun b => rfl, rfl⟩
  · intro p ms hp hj
    have hbp : (p != "") = true := by simpa using hp
    have hbj : (joinStripped ms != "") = true := by simpa using hj
    have h1 : normalize_item (.dict [("pos", PyVal.str p), ("meanings", PyVal.list ms)])
        = if pyTruthy (pyOr (PyVal.str p) PyVal.none)
              && pyTruthy (PyVal.str (joinStripped ms)) then
            pyStr (pyOr (PyVal.str p) PyVal.none) ++ "：" ++ pyStrip (joinStripped ms)
          else jsonDumps (.dict [("pos", PyVal.str p), ("meanings", PyVal.list ms)]) := rfl
    rw [h1]
    have hpor : pyOr (PyVal.str p) PyVal.none = PyVal.str p := by
      simp [pyOr, pyTruthy, hbp]
    rw [hpor]
    simp [pyTruthy, pyStr, hbp, hbj]
  · intro kvs h
    simp only [normalize_item]
    rw [h]
    simp

/-- C7 witness: a structured item with category and two meanings. -/
theorem c7_witness :
    normalize_item (.dict [("pos", PyVal.str "名"),
        ("meanings", PyVal.list [PyVal.str "一", PyVal.str " 二"])])
      = "名" ++ "：" ++ pyStrip (joinStripped [PyVal.str "一", PyVal.str " 二"]) :=
  c7_normalization.2.2.1 "名" [PyVal.str "一", PyVal.str " 二"] (by decide) (by decide)

/-- C8: a successful rewrite-first-N returns the backup equal to the
pre-rewrite output verbatim, a post-rewrite output with the same header
and the same number of rows, rows at positions ≥ N unchanged, and rows
below N changed only in their `meaning_pos` cell; and whenever the
existing output lacks the `meaning_pos` column the operation fails
without producing a new output. -/
theorem c8_rewrite_contract :
    (∀ (inputHeaders outHeaders : List String) (inputRows outRows : List Row)
        (svc : List String → Except String (List PyVal)) (count : Nat) (results : List PyVal),
        1 ≤ count → count ≤ outRows.length → count ≤ inputRows.length →
        "word" ∈ inputHeaders → "meaning_pos" ∈ outHeaders →
        svc ((inputRows.take count).map fun r => pyStrip (rowGetD r "word" "")) = .ok results →
        results.length = count →
        rewrite_first_rows inputHeaders inputRows svc count outHeaders outRows
            = .ok ((outHeaders, outRows),
                   (outHeaders, outRows.enum.map fun q =>
                      if q.1 < count then
                        rowSet q.2 "meaning_pos" ((results.map normalize_item).getD q.1 "")
                      else q.2))
          ∧ (outRows.enum.map fun q =>
              if q.1 < count then
                rowSet q.2 "meaning_pos" ((results.map normalize_item).getD q.1 "")
              else q.2).length = outRows.length
          ∧ (∀ i, count ≤ i →
              (outRows.enum.map fun q =>
                if q.1 < count then
                  rowSet q.2 "meaning_pos" ((results.map normalize_item).getD q.1 "")
                else q.2).getD i [] = outRows.getD i [])
          ∧ (∀ i, i < count → ∀ k, k ≠ "meaning_pos" →
              rowGetD ((outRows.enum.map fun q =>
                  if q.1 < count then
                    rowSet q.2 "meaning_pos" ((results.map normalize_item).getD q.1 "")
                  else q.2).getD i []) k ""
                = rowGetD (outRows.getD i []) k ""))
    ∧ (∀ (inputHeaders outHeaders : List String) (inputRows outRows : List Row)
        (svc : List String → Except String (List PyVal)) (count : Nat),
        "meaning_pos" ∉ outHeaders →
        ∀ res, rewrite_first_rows inputHeaders inputRows svc count outHeaders outRows
          ≠ .ok res) := by
  constructor
  · intro ih oh ir orr svc count results h1 h2 h3 h4 h5 hsvc hlen
    have hwords : ((ir.take count).map fun r => pyStrip (rowGetD r "word" "")).length = count := by
      simp only [List.length_map, List.length_take]
      omega
    have hmain : rewrite_first_rows ih ir svc count oh orr
        = .ok ((oh, orr),
               (oh, orr.enum.map fun q =>
                  if q.1 < count then
                    rowSet q.2 "meaning_pos" ((results.map normalize_item).getD q.1 "")
                  else q.2)) := by
      unfold rewrite_first_rows
      rw [if_neg (by omega : ¬ count < 1), if_neg (by simp [h4])]
      dsimp only
      rw [if_neg (by rw [hwords]; omega)]
      rw [hsvc]
      dsimp only
      rw [if_neg (by omega : ¬ results.length ≠ count), if_neg (by simp [h5]),
        if_neg (by omega : ¬ orr.length < count)]
    refine ⟨hmain, by simp, ?_, ?_⟩
    · intro i hi
      exact rewrite_map_getD_ge orr count i (results.map normalize_item) hi
    · intro i hi k hk
      rw [rewrite_map_getD_lt orr count i (results.map normalize_item) hi (by omega)]
      exact rowGetD_rowSet_ne "meaning_pos" k ((results.map normalize_item).getD i "") "" hk _
  · intro ih oh ir orr svc count hmp res
    unfold rewrite_first_rows
    by_cases h1 : count < 1
    · rw [if_pos h1]; simp
    · rw [if_neg h1]
      by_cases h2 : "word" ∉ ih
      · rw [if_pos h2]; simp
      · rw [if_neg h2]
        dsimp only
        by_cases h3 : ((ir.take count).map fun r => pyStrip (rowGetD r "word" "")).length < count
        · rw [if_pos h3]; simp
        · rw [if_neg h3]
          cases hs : svc ((ir.take count).map fun r => pyStrip (rowGetD r "word" "")) with
          | error e => try rw [hs]
                       simp
          | ok results =>
            try rw [hs]
            dsimp only
            by_cases h4 : results.length ≠ count
            · rw [if_pos h4]; simp
            · rw [if_neg h4, if_pos hmp]
              simp

/-- C8 witness: rewriting the first row of a one-row output. -/
theorem c8_witness :
    rewrite_first_rows ["word"] [[("word", "ktb")]] svcEcho 1 ["word", "meaning_pos"]
        [[("word", "ktb"), ("meaning_pos", "old")]]
      = .ok ((["word", "meaning_pos"], [[("word", "ktb"), ("meaning_pos", "old")]]),
             (["word", "meaning_pos"], [[("word", "ktb"), ("meaning_pos", "ktb")]])) :=
  (c8_rewrite_contract.1 ["word"] ["word", "meaning_pos"] [[("word", "ktb")]]
    [[("word", "ktb"), ("meaning_pos", "old")]] svcEcho 1 [PyVal.str "ktb"]
    (by decide) (by decide) (by decide) (by decide) (by decide) rfl rfl).1

/-- C9 counterexample: in the text pipeline a record whose stripped word
is empty is still admitted — with a service rejecting empty words, the
batch call receives the empty word; with an echo service, the row is
written to the output with an empty result. -/
theorem c9_counterexample :
    ds_process svcRejectEmpty 1 0 0 [[("word", " ")]]
        = .error "empty word reached the service"
      ∧ ds_process svcEcho 1 0 0 [[("word", " ")]]
          = .ok ⟨1, [([("word", " ")], "")], [], []⟩ :=
  ⟨by decide, by decide⟩

/-- C9 (amended): in both audio pipelines every admitted record
satisfies the admission conditions and the processed count respects the
limit — in the xtts pipeline each synthesis call has its index within
the start/end window, non-empty resolved text, and no existing artifact
at its path when skip-existing is on; in the tts batch pipeline each
record admitted to the synthesis batch has non-empty resolved text, no
existing artifact at its output path when skip-existing is on, and no
invalid tokens, and a run from a fresh state never processes past a
positive limit — while in the text pipeline the non-empty text condition
is absent: a row whose word is empty is admitted, sent to the service
and written. -/
theorem c9_admission_conditions :
    (∀ (od : String) (vs : List String) (ex : String → Bool) (sr er lim : Nat) (sk : Bool)
        (ic : Option Nat) (recs : List (Nat × List String × String)) (processed : Nat)
        (c : XttsCall), c ∈ (xtts_loop od vs ex sr er lim sk ic recs processed).1 →
        sr ≤ c.index ∧ (er = 0 ∨ c.index ≤ er) ∧ c.text ≠ ""
          ∧ (sk = true → ex c.path = false))
    ∧ (∀ (od : String) (vs : List String) (ex : String → Bool) (sr er lim : Nat) (sk : Bool)
        (ic : Option Nat) (recs : List (Nat × List String × String)) (processed : Nat),
        lim ≠ 0 → processed < lim →
        (xtts_loop od vs ex sr er lim sk ic recs processed).2 ≤ lim)
    ∧ (∀ (bt : List String → Except String (List Nat)) (g : String → Except String Nat)
        (invalid : String → List String) (existing : String → Bool) (od : String)
        (ic : Option Nat) (ext : String) (bs lim : Nat) (sk : Bool)
        (recs : List (Nat × List String × String)) (bts bps : List String)
        (bms : List (Int × String)) (st : TtsState) (a : Nat × String × String),
        a ∈ (synthesize_rows bt g invalid existing od ic ext bs lim sk recs bts bps bms st).1 →
        a.2.1 ≠ "" ∧ (sk = true → existing a.2.2 = false) ∧ invalid a.2.1 = [])
    ∧ (∀ (bt : List String → Except String (List Nat)) (g : String → Except String Nat)
        (invalid : String → List String) (existing : String → Bool) (od : String)
        (ic : Option Nat) (ext : String) (bs lim : Nat) (sk : Bool)
        (recs : List (Nat × List String × String)), 0 < lim →
        (synthesize_csv bt g invalid existing od ic ext bs lim sk recs).2.processed ≤ lim)
    ∧ ds_process svcEcho 1 0 0 [[("word", "")]] = .ok ⟨1, [([("word", "")], "")], [], []⟩ :=
  ⟨fun od vs ex sr er lim sk ic recs processed c hc =>
      xtts_loop_calls od vs ex sr er lim sk ic recs processed c hc,
   fun od vs ex sr er lim sk ic recs processed h1 h2 =>
      xtts_loop_limit od vs ex sr er lim sk ic recs processed h1 h2,
   fun bt g invalid existing od ic ext bs lim sk recs bts bps bms st a ha =>
      synthesize_rows_admitted bt g invalid existing od ic ext bs lim sk recs bts bps bms st a ha,
   fun bt g invalid existing od ic ext bs lim sk recs hpos =>
      synthesize_rows_limit bt g invalid existing od ic ext bs lim sk hpos recs [] [] []
        ⟨0, [], []⟩ (by simp),
   by decide⟩

/-- C9 witness: the first call of a concrete xtts run satisfies all the
admission conditions. -/
theorem c9_witness :
    (1 : Nat) ≤ 1 ∧ ((0 : Nat) = 0 ∨ (1 : Nat) ≤ 0) ∧ ("hi" : String) ≠ ""
      ∧ (false = true → (fun _ => false : String → Bool) "o/voice1/w1.wav" = false) :=
  c9_admission_conditions.1 "o" ["voice1"] (fun _ => false) 1 0 0 false (Option.some 2)
    (iter_words [["hi", "", "w1"], [], ["", "fb", "w2"]] 0 (Option.some 1)) 0
    ⟨1, "voice1", "o/voice1/w1.wav", "hi"⟩ (by decide)

/-- C10: on a failed batch call, the Failure Log gains one `tts_error`
entry per individually failed record plus one final `batch_error` entry
with row index -1 and empty id and text; a degraded batch with exactly
one failing record therefore adds two entries.  `flush_batch` without a
limit delegates a non-empty batch directly to this degraded body. -/
theorem c10_batch_error_logging :
    (∀ (bt : List String → Except String (List Nat)) (g : String → Except String Nat)
        (texts paths : List String) (metas : List (Int × String)) (st : TtsState) (e : String),
        bt texts = .error e →
        (flush_core bt g texts paths metas st).log
            = st.log ++ (zip3 texts paths metas).filterMap (degradeFail g)
                ++ [⟨-1, "", "", "batch_error:" ++ e⟩]
          ∧ (((zip3 texts paths metas).filterMap (degradeFail g)).length = 1 →
            (flush_core bt g texts paths metas st).log.length = st.log.length + 2))
    ∧ (∀ (bt : List String → Except String (List Nat)) (g : String → Except String Nat)
        (texts paths : List String) (metas : List (Int × String)) (st : TtsState),
        texts ≠ [] →
        flush_batch bt g 0 texts paths metas st = flush_core bt g texts paths metas st) := by
  constructor
  · intro bt g texts paths metas st e hbt
    have hcore : (flush_core bt g texts paths metas st).log
        = st.log ++ (zip3 texts paths metas).filterMap (degradeFail g)
            ++ [⟨-1, "", "", "batch_error:" ++ e⟩] := by
      unfold flush_core
      rw [hbt]
      dsimp only
      rw [foldl_degradeStep]
      try simp [List.append_assoc]
    refine ⟨hcore, ?_⟩
    intro hlen
    rw [hcore]
    simp [hlen]
  · intro bt g texts paths metas st hne
    unfold flush_batch
    rw [if_neg hne, if_neg (by simp : ¬ (0 : Nat) ≠ 0)]

/-- C10 witness: a two-record batch whose batch call fails and in which
exactly one per-record call fails adds exactly two log entries. -/
theorem c10_witness :
    (flush_core (fun _ => .error "cuda") (fun t => if t = "x" then .error "bad" else .ok 7)
        ["x", "y"] ["px", "py"] [(1, "a"), (2, "b")] ⟨0, [], []⟩).log.length
      = ([] : List LogEntry).length + 2 :=
  (c10_batch_error_logging.1 (fun _ => .error "cuda")
    (fun t => if t = "x" then .error "bad" else .ok 7)
    ["x", "y"] ["px", "py"] [(1, "a"), (2, "b")] ⟨0, [], []⟩ "cuda" rfl).2 (by decide)

end Vocab
